import Mathlib

/-!
Shallow embedding of the xfconf-blade client core
(src/gsettings-backend/xfconf-gsettings-backend.c): the BlconfChannel
value bridge, struct codec, notification routing, singleton registry,
and the XfconfGsettingsBackend settings-bridge glue.

GLib GValues are modelled as a closed sum `GV` whose integer payloads are
the mathematical values GLib's typed accessors expose (two's-complement
bit patterns for float/double, which the code never interprets).  Native
struct memory is modelled as a byte-offset-indexed map `Mem` from offsets
to machine cells; the codec reads/writes whole member cells at the
offsets the source's ALIGN_VAL walk computes.
-/

namespace Blconf

/-- GType tags used by the code: the wire scalar kinds, the two 16-bit
Blconf custom kinds, string, string array (G_TYPE_STRV), the boxed
value array (BLCONF_TYPE_G_VALUE_ARRAY), G_TYPE_INVALID, and a code for
any other (unknown/unsupported) registered GType. -/
inductive GTy
  | uchar
  | gchar
  | guint
  | gint
  | guint64
  | gint64
  | gfloat
  | gdouble
  | gboolean
  | uint16
  | int16
  | gstring
  | gstrv
  | gvarray
  | ginvalid
  | gother (code : Nat)
  deriving DecidableEq

/-- A GValue: tag plus payload.  Integer payloads carry the value the
typed accessor returns (guint in [0, 2^32), gint in [-2^31, 2^31), ...);
vfloat/vdouble carry the raw bit pattern, never interpreted. -/
inductive GV
  | vuchar (z : Int)
  | vchar (z : Int)
  | vuint (z : Int)
  | vint (z : Int)
  | vuint64 (z : Int)
  | vint64 (z : Int)
  | vfloat (bits : Int)
  | vdouble (bits : Int)
  | vboolean (z : Int)
  | vuint16 (z : Int)
  | vint16 (z : Int)
  | vstring (s : String)
  | vstrv (ss : List String)
  | varr (vs : List GV)
  | vinvalid

/-- G_VALUE_TYPE. -/
def tagOf : GV → GTy
  | .vuchar _ => .uchar
  | .vchar _ => .gchar
  | .vuint _ => .guint
  | .vint _ => .gint
  | .vuint64 _ => .guint64
  | .vint64 _ => .gint64
  | .vfloat _ => .gfloat
  | .vdouble _ => .gdouble
  | .vboolean _ => .gboolean
  | .vuint16 _ => .uint16
  | .vint16 _ => .int16
  | .vstring _ => .gstring
  | .vstrv _ => .gstrv
  | .varr _ => .gvarray
  | .vinvalid => .ginvalid

/-- A machine cell of a native struct member: a numeric machine value,
a string slot (modelled by the string contents the pointer designates),
or a string-array slot. -/
inductive CVal
  | num (z : Int)
  | strc (s : String)
  | strl (ss : List String)
  deriving DecidableEq

/-- Native struct memory, indexed by byte offset; the codec accesses one
whole member cell at each aligned offset. -/
abbrev Mem := Nat → CVal

/-- Write one member cell. -/
def memUpd (m : Mem) (o : Nat) (c : CVal) : Mem :=
  fun x => if x = o then c else m x

/-- g_str_has_prefix (str, pre): byte-level prefix test; on valid UTF-8
strings this coincides with the character-list prefix test. -/
def gStrHasPre (s pre : String) : Bool :=
  pre.data.isPrefixOf s.data

/-! ### Platform layout table

Modelled from the spec: the ALIGNOF_* constants are produced by the
build's configure checks (not under src/); the spec fixes them as "a
fixed, compiler/platform-dependent table: byte, 16-bit, 32-bit, 64-bit,
pointer-sized for strings".  We take the standard 64-bit (LP64) table,
where each scalar's alignment equals its storage size. -/

/-- Modelled from the spec: storage size in bytes of each struct member
kind on the target platform (sizeof in the source's layout walk).
Kinds that the struct codec rejects never reach a sizeof; they get 0. -/
def sizeOfTy : GTy → Nat
  | .uchar => 1
  | .gchar => 1
  | .guint => 4
  | .gint => 4
  | .guint64 => 8
  | .gint64 => 8
  | .gfloat => 4
  | .gdouble => 8
  | .gboolean => 4
  | .uint16 => 2
  | .int16 => 2
  | .gstring => 8
  | _ => 0

/-- Modelled from the spec: natural platform alignment of each struct
member kind (the ALIGNOF_* table).  Kinds the struct codec rejects never
reach an ALIGNOF_; they get 1 so that alignment is always positive. -/
def alignOfTy : GTy → Nat
  | .uchar => 1
  | .gchar => 1
  | .guint => 4
  | .gint => 4
  | .guint64 => 8
  | .gint64 => 8
  | .gfloat => 4
  | .gdouble => 8
  | .gboolean => 4
  | .uint16 => 2
  | .int16 => 2
  | .gstring => 8
  | _ => 1

/-- ALIGN_VAL(val, align) = ((val) + ((align) - 1)) and-not (align - 1):
for the power-of-two alignments of the table this mask formula equals
rounding (val + align - 1) down to the next multiple of align. -/
def alignVal (v a : Nat) : Nat :=
  (v + a - 1) - (v + a - 1) % a

/-- The member offsets the source's layout walk visits: round the
running offset up to the member's alignment, then advance by its size
(shared by blconf_channel_set_structv and blconf_channel_get_structv). -/
def structOffsets : List GTy → Nat → List (Nat × GTy)
  | [], _ => []
  | k :: ks, off =>
    let o := alignVal off (alignOfTy k)
    (o, k) :: structOffsets ks (o + sizeOfTy k)

/-- A machine cell is a well-formed value of the given member kind (the
value ranges of the C member types; gboolean cells are normalized 0/1,
as g_value_set_boolean stores v_boolean != FALSE). -/
def cellOk : GTy → CVal → Bool
  | .uchar, .num z => decide (0 ≤ z ∧ z < 256)
  | .gchar, .num z => decide (-128 ≤ z ∧ z < 128)
  | .guint, .num z => decide (0 ≤ z ∧ z < 4294967296)
  | .gint, .num z => decide (-2147483648 ≤ z ∧ z < 2147483648)
  | .guint64, .num z => decide (0 ≤ z ∧ z < 18446744073709551616)
  | .gint64, .num z => decide (-9223372036854775808 ≤ z ∧ z < 9223372036854775808)
  | .gfloat, .num z => decide (0 ≤ z ∧ z < 4294967296)
  | .gdouble, .num z => decide (0 ≤ z ∧ z < 18446744073709551616)
  | .gboolean, .num z => decide (z = 0 ∨ z = 1)
  | .uint16, .num z => decide (0 ≤ z ∧ z < 65536)
  | .int16, .num z => decide (-32768 ≤ z ∧ z < 32768)
  | .gstring, .strc _ => true
  | _, _ => false

/-- A struct conforms to a descriptor when every member cell at its
aligned offset is well-formed for the declared kind. -/
def conformsB (D : List GTy) (mem : Mem) : Bool :=
  (structOffsets D 0).all fun p => cellOk p.2 (mem p.1)

/-! ### 16-bit wire workaround (blconf_fixup_16bit_ints and the
interception in blconf_channel_set_property) -/

/-- Whether a value carries one of the two 16-bit custom kinds. -/
def is16 : GV → Bool
  | .vuint16 _ => true
  | .vint16 _ => true
  | _ => false

/-- The per-element rewrap of blconf_fixup_16bit_ints: uint16 payloads
are rewrapped as G_TYPE_UINT (g_value_set_uint of
blconf_g_value_get_uint16), int16 as G_TYPE_INT; everything else is
g_value_copy'd unchanged. -/
def conv16 : GV → GV
  | .vuint16 z => .vuint z
  | .vint16 z => .vint z
  | v => v

/-- blconf_fixup_16bit_ints: returns NULL (none) when no element is
16-bit, otherwise the element-wise rewrapped array. -/
def fixup16 (arr : List GV) : Option (List GV) :=
  if arr.any is16 then some (arr.map conv16) else none

/-- The value array blconf_channel_set_arrayv actually hands to the
cache: the fixup result if there was one, else the caller's array. -/
def wireArr (arr : List GV) : List GV :=
  (fixup16 arr).getD arr

/-- The scalar interception in blconf_channel_set_property: 16-bit
scalars are rewrapped as 32-bit wire scalars of matching signedness;
value arrays go through blconf_fixup_16bit_ints; all other values pass
through unchanged. -/
def setPropertyVal : GV → GV
  | .vuint16 z => .vuint z
  | .vint16 z => .vint z
  | .varr vs => .varr (wireArr vs)
  | v => v

/-! ### Struct codec (blconf_channel_set_structv / blconf_channel_get_structv) -/

/-- One GET_STRUCT_VAL step of blconf_channel_set_structv: build the
GValue for the member cell read at the aligned offset.  The 16-bit
member kinds produce BLCONF_TYPE_UINT16/INT16 values (set_arrayv's
fixup converts them); g_value_set_boolean normalizes to 0/1; any other
member kind hits the default branch and fails.  A cell whose shape does
not match the member kind would be a C type-punning reinterpretation;
it is unrepresentable here and yields none (the round-trip theorem's
conformance hypothesis rules it out). -/
def packVal : GTy → CVal → Option GV
  | .gstring, .strc s => some (.vstring s)
  | .uchar, .num z => some (.vuchar z)
  | .gchar, .num z => some (.vchar z)
  | .guint, .num z => some (.vuint z)
  | .gint, .num z => some (.vint z)
  | .guint64, .num z => some (.vuint64 z)
  | .gint64, .num z => some (.vint64 z)
  | .gfloat, .num z => some (.vfloat z)
  | .gdouble, .num z => some (.vdouble z)
  | .gboolean, .num z => some (.vboolean (if z = 0 then 0 else 1))
  | .uint16, .num z => some (.vuint16 z)
  | .int16, .num z => some (.vint16 z)
  | _, _ => none

/-- The member loop of blconf_channel_set_structv: walk the descriptor,
aligning and advancing the offset, reading each member cell into a
GValue; an unhandled member kind aborts the whole operation. -/
def setStructvGo : List GTy → Nat → Mem → Option (List GV)
  | [], _, _ => some []
  | k :: ks, off, mem =>
    let o := alignVal off (alignOfTy k)
    match packVal k (mem o) with
    | none => none
    | some v =>
      match setStructvGo ks (o + sizeOfTy k) mem with
      | none => none
      | some vs => some (v :: vs)

/-- blconf_channel_set_structv up to the value array it builds (the
g_return_val_if_fail rejects n_members == 0). -/
def setStructvArr (D : List GTy) (mem : Mem) : Option (List GV) :=
  if D.isEmpty then none else setStructvGo D 0 mem

/-- blconf_channel_set_structv end to end: the wire value handed to the
cache is the built array after set_arrayv's 16-bit fixup. -/
def setStructvWire (D : List GTy) (mem : Mem) : Option GV :=
  (setStructvArr D mem).map fun arr => .varr (wireArr arr)

/-- One SET_STRUCT_VAL step of blconf_channel_get_structv, less the
offset plumbing: CHECK_VALUE_TYPES against the expected wire tag (the
16-bit member kinds expect the 32-bit wire tags), then the C store with
its implicit narrowing casts ((guint16) of a guint, (gint16) of a gint
in two's complement).  Unhandled member kinds hit the default branch
and fail. -/
def convMember : GTy → GV → Option CVal
  | .gstring, .vstring s => some (.strc s)
  | .uchar, .vuchar z => some (.num z)
  | .gchar, .vchar z => some (.num z)
  | .guint, .vuint z => some (.num z)
  | .gint, .vint z => some (.num z)
  | .guint64, .vuint64 z => some (.num z)
  | .gint64, .vint64 z => some (.num z)
  | .gfloat, .vfloat z => some (.num z)
  | .gdouble, .vdouble z => some (.num z)
  | .gboolean, .vboolean z => some (.num z)
  | .uint16, .vuint z => some (.num (z % 65536))
  | .int16, .vint z => some (.num ((z + 32768) % 65536 - 32768))
  | _, _ => none

/-- The member loop of blconf_channel_get_structv: each member is
written into the destination struct as soon as its element passes the
type check; a failure aborts with the destination as mutated so far. -/
def getStructvGo : List GTy → List GV → Nat → Mem → Bool × Mem
  | [], _, _, mem => (true, mem)
  | _ :: _, [], _, mem => (false, mem)
  | k :: ks, v :: vs, off, mem =>
    match convMember k v with
    | none => (false, mem)
    | some c =>
      let o := alignVal off (alignOfTy k)
      getStructvGo ks vs (o + sizeOfTy k) (memUpd mem o c)

/-- blconf_channel_get_structv, from the retrieved value array onward:
g_return_val_if_fail rejects n_members == 0, a length mismatch between
the value array and the descriptor fails before the loop, and the loop
fills the destination struct member by member. -/
def getStructv (D : List GTy) (arr : List GV) (mem : Mem) : Bool × Mem :=
  if D.isEmpty then (false, mem)
  else if arr.length ≠ D.length then (false, mem)
  else getStructvGo D arr 0 mem

/-! ### Typed GValue accessors (GLib semantics: the typed getter returns
the payload when the tag matches, and the type's zero after the failed
G_VALUE_HOLDS check otherwise). -/

def gValueGetUchar : GV → Int
  | .vuchar z => z
  | _ => 0

def gValueGetChar : GV → Int
  | .vchar z => z
  | _ => 0

def gValueGetUint : GV → Int
  | .vuint z => z
  | _ => 0

def gValueGetInt : GV → Int
  | .vint z => z
  | _ => 0

def gValueGetUint64 : GV → Int
  | .vuint64 z => z
  | _ => 0

def gValueGetInt64 : GV → Int
  | .vint64 z => z
  | _ => 0

def gValueGetFloat : GV → Int
  | .vfloat z => z
  | _ => 0

def gValueGetDouble : GV → Int
  | .vdouble z => z
  | _ => 0

def gValueGetBoolean : GV → Int
  | .vboolean z => z
  | _ => 0

def gValueDupString : GV → String
  | .vstring s => s
  | _ => ""

def gValueDupStrv : GV → List String
  | .vstrv ss => ss
  | _ => []

/-! ### blconf_channel_get_array_valist -/

/-- The type check of the valist loop: the element must carry exactly
the requested type, except that a 16-bit request accepts the 32-bit
wire tag of matching signedness ("uint16/int16 are stored as
uint/int"). -/
def valistTypeOk (req : GTy) (v : GV) : Bool :=
  tagOf v == req
    || (tagOf v == .guint && req == .uint16)
    || (tagOf v == .gint && req == .int16)

/-- One iteration of the valist loop: type check, then the store into
the caller's slot, with the (guint16)/(gint16) narrowing casts on the
16-bit paths; an unknown requested type fails. -/
def readElem (req : GTy) (v : GV) : Option CVal :=
  if ¬ valistTypeOk req v then none
  else
    match req with
    | .uchar => some (.num (gValueGetUchar v))
    | .gchar => some (.num (gValueGetChar v))
    | .guint => some (.num (gValueGetUint v))
    | .gint => some (.num (gValueGetInt v))
    | .guint64 => some (.num (gValueGetUint64 v))
    | .gint64 => some (.num (gValueGetInt64 v))
    | .gfloat => some (.num (gValueGetFloat v))
    | .gdouble => some (.num (gValueGetDouble v))
    | .gboolean => some (.num (gValueGetBoolean v))
    | .gstring => some (.strc (gValueDupString v))
    | .uint16 => some (.num (gValueGetUint v % 65536))
    | .int16 => some (.num ((gValueGetInt v + 32768) % 65536 - 32768))
    | .gstrv => some (.strl (gValueDupStrv v))
    | _ => none

/-- The pairing of requested types with array elements: too many
requested types or too few consume the whole operation. -/
def valistGo : List GTy → List GV → Option (List CVal)
  | [], [] => some []
  | [], _ :: _ => none
  | _ :: _, [] => none
  | r :: rs, v :: vs =>
    match readElem r v with
    | none => none
    | some c =>
      match valistGo rs vs with
      | none => none
      | some cs => some (c :: cs)

/-- blconf_channel_get_array_valist, from the retrieved value array
onward (blconf_channel_get_arrayv reports an empty array as failure). -/
def getArrayValist (reqs : List GTy) (arr : List GV) : Option (List CVal) :=
  if arr.isEmpty then none else valistGo reqs arr

/-! ### blconf_transform_array and blconf_channel_get_property.
g_value_transform is an external GLib collaborator; it is abstracted as
a function t returning the transformed value or none on failure. -/

/-- The per-element conversion of blconf_transform_array: an element
already of the target type is g_value_copy'd, otherwise
g_value_transform is attempted. -/
def transformElem (t : GV → GTy → Option GV) (ty : GTy) (v : GV) : Option GV :=
  if tagOf v == ty then some v else t v ty

/-- The element loop of blconf_transform_array: all-or-nothing; a
failing element frees the partially built array and fails the whole
conversion. -/
def transformGo (t : GV → GTy → Option GV) (ty : GTy) : List GV → Option (List GV)
  | [] => some []
  | v :: vs =>
    match transformElem t ty v with
    | none => none
    | some w =>
      match transformGo t ty vs with
      | none => none
      | some ws => some (w :: ws)

/-- blconf_transform_array: the g_return_val_if_fail guards reject an
empty source array and an invalid target type. -/
def transformArrayA (t : GV → GTy → Option GV) (arr : List GV) (ty : GTy) : Option (List GV) :=
  if ty = .ginvalid then none
  else if arr.isEmpty then none
  else transformGo t ty arr

/-- The conversion step of blconf_channel_get_property on a value
retrieved from the cache: a caller-requested type differing from the
native one sends arrays through blconf_transform_array element-wise and
scalars through g_value_transform; an uninitialized (invalid) request
or a matching native type returns the stored value as-is. -/
def getPropertyVal (t : GV → GTy → Option GV) (stored : GV) (req : GTy) : Option GV :=
  if req = .ginvalid ∨ req = tagOf stored then some stored
  else
    match stored with
    | .varr vs => (transformArrayA t vs req).map GV.varr
    | v => t v req

/-! ### Channel operations -/

/-- REAL_PROP(channel, property): the absolute path is property_base
prepended to the channel-relative path when a base is set. -/
def realProp (base : Option String) (property : String) : String :=
  match base with
  | some b => b ++ property
  | none => property

/-- blconf_channel_property_changed (the notification router): drop
events for other channels; with a property_base set, drop events
outside the base and strip the base from the rest, an empty remainder
becoming "/"; re-emit keyed by the resulting local property. -/
def propertyChangedLocal (chName : String) (base : Option String) (evCh evProp : String) : Option String :=
  if evCh ≠ chName then none
  else
    match base with
    | none => some evProp
    | some b =>
      if ¬ gStrHasPre evProp b then none
      else
        let r := String.mk (evProp.data.drop b.data.length)
        some (if r = "" then "/" else r)

/-- The g_return_if_fail validation of blconf_channel_reset_property:
proceed only when the property base is a string of at least two bytes
(property_base && property_base[0] && property_base[1]) or the reset is
recursive. -/
def resetPropertyValid (pb : Option String) (recursive : Bool) : Bool :=
  (match pb with
   | some s => decide (2 ≤ s.utf8ByteSize)
   | none => false)
  || recursive

/-- REAL_PROP applied to reset's possibly-NULL property base (with both
the channel base and the argument NULL the cache receives NULL). -/
def realPropOpt (base pb : Option String) : Option String :=
  match base with
  | some b => some (b ++ pb.getD "")
  | none => pb

/-- blconf_channel_reset_property: validation happens before the cache
is consulted; none models the rejected call (no cache traffic), some
carries the (absolute base, recursive) pair given to blconf_cache_reset. -/
def resetProperty (base pb : Option String) (recursive : Bool) : Option (Option String × Bool) :=
  if resetPropertyValid pb recursive then some (realPropOpt base pb, recursive) else none

/-- blconf_channel_constructor's singleton logic, serialized by the
G_LOCK(__singletons) critical section: under the lock, look the name up
in the singleton registry and return the registered instance, else
construct a fresh instance (identified by freshId) and register it.
Non-singleton construction always yields the fresh instance. -/
def channelConstructor (reg : List (String × Nat)) (freshId : Nat) (name : String) (isSingleton : Bool) : List (String × Nat) × Nat :=
  if isSingleton then
    match reg.lookup name with
    | some ch => (reg, ch)
    | none => ((name, freshId) :: reg, freshId)
  else (reg, freshId)

/-- blconf_channel_is_property_locked: the dbus query
blconf_client_is_property_locked is issued with `property` (the
channel-relative name) even though `real_property` was computed; a
transport failure (none) defaults to not locked.  The oracle abstracts
the daemon's reply for a (channel, property) query. -/
def isPropertyLocked (oracle : String → String → Option Bool) (chName : String) (base : Option String) (property : String) : Bool :=
  match oracle chName property with
  | some locked => locked
  | none => false

/-- Modelled from the spec: is_locked resolves the caller-supplied path
to the absolute path property_base + path and queries the locked-state
collaborator with that absolute path. -/
def isPropertyLockedSpec (oracle : String → String → Option Bool) (chName : String) (base : Option String) (property : String) : Bool :=
  match oracle chName (realProp base property) with
  | some locked => locked
  | none => false

/-! ### XfconfGsettingsBackend (the settings bridge) -/

/-- The bridge's mutable state: the exact-key pending-write table
(changed_prop, a hash table from path to origin tag, where a present
entry may carry any tag value) and the subscribed-prefix table
(subscribed_prop, whose keys the callback iterates). -/
structure BackendState (α : Type) where
  changedProp : String → Option α
  subscribedProp : List String

/-- Observable emissions of the bridge callback: a changed signal
attributed to an origin tag, an unattributed changed signal, or the
non-fatal "Changed property not expected" warning. -/
inductive BackendEvent (α : Type)
  | changedWithTag (p : String) (tag : α)
  | changed (p : String)
  | warnUnexpected (p : String)

/-- xfconf_gsettings_backend_property_changed_cb: an exact pending-write
entry is consumed and its tag attributed; otherwise the subscribed
prefixes are scanned linearly and the first literal prefix match emits
an unattributed changed signal; otherwise the event is only logged. -/
def propertyChangedCb {α : Type} (st : BackendState α) (p : String) : BackendState α × List (BackendEvent α) :=
  match st.changedProp p with
  | some tg =>
    ({ st with changedProp := fun q => if q = p then none else st.changedProp q },
     [.changedWithTag p tg])
  | none =>
    match st.subscribedProp.find? (fun pre => gStrHasPre p pre) with
    | some _ => (st, [.changed p])
    | none => (st, [.warnUnexpected p])

/-- xfconf_gsettings_backend_write: on a successful variant-to-value
conversion the pending-write tag is recorded (and removed again when
the channel set fails), and the function returns FALSE unconditionally.
conv abstracts xfconf_gvariant_to_gvalue, cacheSetOk the
xfconf_channel_set_property outcome. -/
def backendWrite {α : Type} (st : BackendState α) (key : String) (tag : α) (conv : Option GV) (cacheSetOk : GV → Bool) : BackendState α × Bool :=
  match conv with
  | none => (st, false)
  | some v =>
    let st1 : BackendState α :=
      { st with changedProp := fun q => if q = key then some tag else st.changedProp q }
    if cacheSetOk v then (st1, false)
    else ({ st1 with changedProp := fun q => if q = key then none else st1.changedProp q }, false)

/-- The spec's multi-alignment example descriptor [u8, u64, u16,
string]. -/
def exD : List GTy := [GTy.uchar, GTy.guint64, GTy.uint16, GTy.gstring]

/-- A conformant example struct for exD: members at the aligned offsets
0, 8, 16 and 24 of the LP64 layout walk. -/
def exMem : Mem := fun o =>
  if o = 0 then CVal.num 200
  else if o = 8 then CVal.num 123456789
  else if o = 16 then CVal.num 300
  else if o = 24 then CVal.strc "hi"
  else CVal.num 0

/-! ## Theorems -/

/-- C9: reset with an empty (or NULL) property base and recursive=false
fails validation before the cache is consulted, while recursive=true
always passes validation, whatever the base. -/
theorem reset_validation (base pb : Option String) :
    resetProperty base none false = none ∧
    resetProperty base (some "") false = none ∧
    (resetProperty base pb true).isSome = true := by
  refine ⟨rfl, ?_, ?_⟩
  · simp [resetProperty, resetPropertyValid]
    decide
  · simp [resetProperty, resetPropertyValid]

/-- C9 witness: evaluated at a concrete channel base. -/
theorem reset_validation_witness :
    resetProperty (some "/ch") none false = none ∧
    resetProperty (some "/ch") (some "") false = none ∧
    (resetProperty (some "/ch") none true).isSome = true :=
  reset_validation (some "/ch") none

/-- C10: the settings-bridge write operation returns FALSE for every
key, conversion outcome, origin tag and channel-set outcome — success
is never signalled through its return value. -/
theorem backend_write_returns_false {α : Type} (st : BackendState α) (key : String)
    (tag : α) (conv : Option GV) (cacheSetOk : GV → Bool) :
    (backendWrite st key tag conv cacheSetOk).2 = false := by
  cases conv with
  | none => rfl
  | some v =>
    unfold backendWrite
    dsimp only
    split <;> rfl

/-- C7: singleton construction is idempotent and registers a unique
shared instance: the constructed channel is registered under its name,
and a second singleton construction for the same name (with any fresh
candidate instance) returns the identical registered instance and
leaves the registry unchanged. -/
theorem channel_singleton_unique (reg : List (String × Nat)) (f1 f2 : Nat) (name : String) :
    ((channelConstructor reg f1 name true).1).lookup name = some (channelConstructor reg f1 name true).2 ∧
    channelConstructor (channelConstructor reg f1 name true).1 f2 name true = channelConstructor reg f1 name true := by
  unfold channelConstructor
  cases h : reg.lookup name with
  | some ch => simp [h]
  | none => simp [h, List.lookup]

/-- C8 (code bug): blconf_channel_is_property_locked computes the
absolute path but issues the locked-state query with the relative
path.  With property_base "/foo" and property "/bar", an oracle that
reports only the absolute path "/foo/bar" as locked: the code answers
"not locked" while the spec-modelled operation answers "locked". -/
theorem is_property_locked_relative_path :
    realProp (some "/foo") "/bar" = "/foo/bar" ∧
    isPropertyLocked (fun _ q => some (decide (q = "/foo/bar"))) "ch" (some "/foo") "/bar" = false ∧
    isPropertyLockedSpec (fun _ q => some (decide (q = "/foo/bar"))) "ch" (some "/foo") "/bar" = true := by
  refine ⟨rfl, ?_, ?_⟩ <;> decide

/-- C2: a 16-bit scalar is transmitted as a 32-bit wire scalar of
matching signedness holding the same value, and reading the stored
wire scalar back with an explicit 16-bit request returns exactly the
original value. -/
theorem sixteen_bit_wire_roundtrip (zu zi : Int)
    (hu : 0 ≤ zu ∧ zu < 65536) (hi : -32768 ≤ zi ∧ zi < 32768) :
    setPropertyVal (.vuint16 zu) = .vuint zu ∧
    setPropertyVal (.vint16 zi) = .vint zi ∧
    getArrayValist [.uint16] [setPropertyVal (.vuint16 zu)] = some [.num zu] ∧
    getArrayValist [.int16] [setPropertyVal (.vint16 zi)] = some [.num zi] := by
  refine ⟨rfl, rfl, ?_, ?_⟩
  · have h : zu % 65536 = zu := Int.emod_eq_of_lt hu.1 hu.2
    simp [getArrayValist, valistGo, readElem, valistTypeOk, gValueGetUint, setPropertyVal, tagOf, h]
  · have h : (zi + 32768) % 65536 - 32768 = zi := by omega
    simp [getArrayValist, valistGo, readElem, valistTypeOk, gValueGetInt, setPropertyVal, tagOf, h]

/-- C2 witness: the round-trip evaluated at 42 (unsigned) and -5
(signed). -/
theorem sixteen_bit_wire_roundtrip_witness :
    setPropertyVal (.vuint16 42) = .vuint 42 ∧
    setPropertyVal (.vint16 (-5)) = .vint (-5) ∧
    getArrayValist [.uint16] [setPropertyVal (.vuint16 42)] = some [.num 42] ∧
    getArrayValist [.int16] [setPropertyVal (.vint16 (-5))] = some [.num (-5)] :=
  sixteen_bit_wire_roundtrip 42 (-5) ⟨by decide, by decide⟩ ⟨by decide, by decide⟩

/-- C5: routing of a raw change event: dropped for a foreign channel
name; dropped when a property base is set and the absolute property
does not start with it; otherwise re-emitted keyed by the absolute
property with the base stripped, an empty remainder becoming "/" (and
unchanged when no base is set). -/
theorem property_changed_routing (name : String) (base : Option String) (evCh evProp : String) :
    (evCh ≠ name → propertyChangedLocal name base evCh evProp = none) ∧
    (∀ b, base = some b → gStrHasPre evProp b = false →
      propertyChangedLocal name base evCh evProp = none) ∧
    (evCh = name → base = none → propertyChangedLocal name base evCh evProp = some evProp) ∧
    (∀ b, evCh = name → base = some b → gStrHasPre evProp b = true →
      ∃ rest : List Char, evProp.data = b.data ++ rest ∧
        propertyChangedLocal name base evCh evProp =
          some (if rest.isEmpty then "/" else String.mk rest)) := by
  refine ⟨?_, ?_, ?_, ?_⟩
  · intro h
    simp [propertyChangedLocal, h]
  · intro b hb hpre
    subst hb
    by_cases hc : evCh = name
    · simp [propertyChangedLocal, hc, hpre]
    · simp [propertyChangedLocal, hc]
  · intro h hb
    subst h
    subst hb
    simp [propertyChangedLocal]
  · intro b hch hb hpre
    subst hch
    subst hb
    have hp : b.data <+: evProp.data := by
      simpa [gStrHasPre] using hpre
    obtain ⟨rest, hr⟩ := hp
    have hdrop : evProp.data.drop b.data.length = rest := by
      rw [← hr]
      exact List.drop_left _ _
    refine ⟨rest, hr.symm, ?_⟩
    simp only [propertyChangedLocal, gStrHasPre]
    rw [if_neg (by simp)]
    simp only [hpre, Bool.not_true, hdrop]
    cases rest with
    | nil =>
      simp
      exact ⟨[], hr⟩
    | cons c cs =>
      have hne : String.mk (c :: cs) ≠ "" := by
        intro hcontra
        have : (String.mk (c :: cs)).data = ("" : String).data := by rw [hcontra]
        simp at this
      simp [hne]
      exact ⟨c :: cs, hr⟩

/-- C5 witness: the spec's example, a channel named apps with base
/foo: an event from another channel is dropped, an event outside /foo
is dropped, and an event for /foo/bar is re-keyed to /bar. -/
theorem property_changed_routing_witness :
    propertyChangedLocal "apps" (some "/foo") "zzz" "/foo/bar" = none ∧
    propertyChangedLocal "apps" (some "/foo") "apps" "/other/x" = none ∧
    (∃ rest : List Char, ("/foo/bar" : String).data = ("/foo" : String).data ++ rest ∧
      propertyChangedLocal "apps" (some "/foo") "apps" "/foo/bar" =
        some (if rest.isEmpty then "/" else String.mk rest)) :=
  ⟨(property_changed_routing "apps" (some "/foo") "zzz" "/foo/bar").1 (by decide),
   (property_changed_routing "apps" (some "/foo") "apps" "/other/x").2.1 "/foo" rfl (by decide),
   (property_changed_routing "apps" (some "/foo") "apps" "/foo/bar").2.2.2 "/foo" rfl rfl (by decide)⟩

/-- C6: the bridge callback consumes an exact pending-write entry and
attributes the changed signal to its tag without consulting the prefix
subscriptions; with no pending entry it emits a single unattributed
changed signal when some subscribed prefix literally prefixes the
property; with neither it only logs the unexpected event, leaving the
state untouched. -/
theorem backend_cb_routing {α : Type} (st : BackendState α) (p : String) :
    (∀ tg, st.changedProp p = some tg →
      (propertyChangedCb st p).2 = [BackendEvent.changedWithTag p tg] ∧
      (propertyChangedCb st p).1.changedProp p = none ∧
      (∀ q, q ≠ p → (propertyChangedCb st p).1.changedProp q = st.changedProp q) ∧
      (propertyChangedCb st p).1.subscribedProp = st.subscribedProp) ∧
    (st.changedProp p = none →
      (st.subscribedProp.any fun pre => gStrHasPre p pre) = true →
      propertyChangedCb st p = (st, [BackendEvent.changed p])) ∧
    (st.changedProp p = none →
      (st.subscribedProp.any fun pre => gStrHasPre p pre) = false →
      propertyChangedCb st p = (st, [BackendEvent.warnUnexpected p])) := by
  refine ⟨?_, ?_, ?_⟩
  · intro tg htg
    simp [propertyChangedCb, htg]
    intro q hq
    simp [hq]
  · intro hnone hany
    have hfind : (st.subscribedProp.find? fun pre => gStrHasPre p pre).isSome := by
      rw [List.find?_isSome]
      simpa using List.any_eq_true.mp hany
    obtain ⟨pre, hpre⟩ := Option.isSome_iff_exists.mp hfind
    simp [propertyChangedCb, hnone, hpre]
  · intro hnone hany
    have hfind : (st.subscribedProp.find? fun pre => gStrHasPre p pre) = none := by
      rw [List.find?_eq_none]
      intro x hx
      have := List.any_eq_false.mp hany x hx
      simpa using this
    simp [propertyChangedCb, hnone, hfind]

/-- C6 witness: a pending-write entry for /foo is consumed and
attributed; afterwards an event for /foo/bar matches the subscribed
prefix /foo; an event for /zzz matches nothing and is only logged. -/
theorem backend_cb_routing_witness :
    (propertyChangedCb ⟨fun q => if q = "/foo" then some 7 else none, ["/foo"]⟩ "/foo").2 =
      [BackendEvent.changedWithTag "/foo" (7 : Nat)] ∧
    propertyChangedCb (⟨fun _ => none, ["/foo"]⟩ : BackendState Nat) "/foo/bar" =
      (⟨fun _ => none, ["/foo"]⟩, [BackendEvent.changed "/foo/bar"]) ∧
    propertyChangedCb (⟨fun _ => none, ["/foo"]⟩ : BackendState Nat) "/zzz" =
      (⟨fun _ => none, ["/foo"]⟩, [BackendEvent.warnUnexpected "/zzz"]) :=
  ⟨((backend_cb_routing ⟨fun q => if q = "/foo" then some 7 else none, ["/foo"]⟩ "/foo").1 7 (by simp)).1,
   (backend_cb_routing ⟨fun _ => none, ["/foo"]⟩ "/foo/bar").2.1 rfl (by decide),
   (backend_cb_routing ⟨fun _ => none, ["/foo"]⟩ "/zzz").2.2 rfl (by decide)⟩

theorem transformGo_eq_none_of_mem {t : GV → GTy → Option GV} {ty : GTy} {vs : List GV}
    (h : ∃ v ∈ vs, transformElem t ty v = none) : transformGo t ty vs = none := by
  induction vs with
  | nil => simp at h
  | cons v rest ih =>
    obtain ⟨w, hw, hwn⟩ := h
    rcases List.mem_cons.mp hw with hhead | htail
    · subst hhead
      simp [transformGo, hwn]
    · cases hv : transformElem t ty v with
      | none => simp [transformGo, hv]
      | some w2 => simp [transformGo, hv, ih ⟨w, htail, hwn⟩]

theorem transformGo_some_forall {t : GV → GTy → Option GV} {ty : GTy} {vs ws : List GV}
    (h : transformGo t ty vs = some ws) :
    List.Forall₂ (fun v w => transformElem t ty v = some w) vs ws := by
  induction vs generalizing ws with
  | nil =>
    simp [transformGo] at h
    subst h
    exact List.Forall₂.nil
  | cons v rest ih =>
    simp only [transformGo] at h
    cases hv : transformElem t ty v with
    | none => rw [hv] at h; exact absurd h (by simp)
    | some w =>
      rw [hv] at h
      cases hrest : transformGo t ty rest with
      | none => rw [hrest] at h; exact absurd h (by simp)
      | some ws2 =>
        rw [hrest] at h
        cases h
        exact List.Forall₂.cons hv (ih hrest)

/-- C4: converting a stored value array to a requested scalar type is
all-or-nothing: a retrieval whose requested type differs from the
native array type fails outright as soon as any single element fails
g_value_transform, and whenever it succeeds, every element of the
result is the independent conversion of the corresponding stored
element.  The g_value_transform collaborator t is arbitrary. -/
theorem array_conversion_all_or_nothing (t : GV → GTy → Option GV) (vs : List GV) (ty : GTy)
    (h1 : ty ≠ GTy.ginvalid) (h2 : ty ≠ GTy.gvarray) :
    ((∃ v ∈ vs, tagOf v ≠ ty ∧ t v ty = none) → getPropertyVal t (.varr vs) ty = none) ∧
    (∀ l, getPropertyVal t (.varr vs) ty = some l →
      ∃ ws, l = .varr ws ∧
        List.Forall₂ (fun v w => transformElem t ty v = some w) vs ws) := by
  have hbranch : ¬ (ty = GTy.ginvalid ∨ ty = tagOf (GV.varr vs)) := by
    simp [tagOf, h1, h2]
  constructor
  · rintro ⟨v, hv, htag, htr⟩
    have hvs : vs ≠ [] := by rintro rfl; simp at hv
    have helem : transformElem t ty v = none := by
      simp [transformElem, htag, htr]
    simp only [getPropertyVal, if_neg hbranch]
    rw [transformArrayA, if_neg h1, if_neg (by simpa [List.isEmpty_iff] using hvs)]
    rw [transformGo_eq_none_of_mem ⟨v, hv, helem⟩]
    rfl
  · intro l hl
    simp only [getPropertyVal, if_neg hbranch] at hl
    cases htr : transformArrayA t vs ty with
    | none => rw [htr] at hl; exact absurd hl (by simp)
    | some ws =>
      rw [htr] at hl
      simp only [Option.map_some'] at hl
      refine ⟨ws, (Option.some_inj.mp hl).symm, ?_⟩
      rw [transformArrayA, if_neg h1] at htr
      by_cases hvs : vs.isEmpty
      · rw [if_pos hvs] at htr; exact absurd htr (by simp)
      · rw [if_neg hvs] at htr
        exact transformGo_some_forall htr

/-- C4 witness: with a transform that always fails, a stored [uint 3]
requested as string fails whole; with a transform that always succeeds,
the successful result is the element-wise conversion. -/
theorem array_conversion_witness :
    getPropertyVal (fun _ _ => none) (GV.varr [GV.vuint 3]) GTy.gstring = none ∧
    (∃ ws, GV.varr [GV.vuint 3] = GV.varr ws ∧
      List.Forall₂ (fun v w => transformElem (fun v _ => some v) GTy.gstring v = some w)
        [GV.vuint 3] ws) :=
  ⟨(array_conversion_all_or_nothing (fun _ _ => none) [GV.vuint 3] GTy.gstring
      (by decide) (by decide)).1 ⟨GV.vuint 3, by simp, by decide, rfl⟩,
   (array_conversion_all_or_nothing (fun v _ => some v) [GV.vuint 3] GTy.gstring
      (by decide) (by decide)).2 (GV.varr [GV.vuint 3]) rfl⟩

/-- C3 counterexample: a failed struct retrieval CAN leave the
destination partially mutated.  With descriptor [uint, string] and
stored array [uint 7, uint 8], the type check fails at the second
member, the call reports failure, yet the first member slot (offset 0)
has already been overwritten with 7. -/
theorem get_structv_partial_mutation :
    (getStructv [GTy.guint, GTy.gstring] [GV.vuint 7, GV.vuint 8] (fun _ => CVal.num 0)).1 = false ∧
    (getStructv [GTy.guint, GTy.gstring] [GV.vuint 7, GV.vuint 8] (fun _ => CVal.num 0)).2 0 ≠ CVal.num 0 := by
  decide

theorem getStructvGo_any_fail (D : List GTy) (arr : List GV) (off : Nat) (mem : Mem)
    (h : ((D.zip arr).any fun q => (convMember q.1 q.2).isNone) = true) :
    (getStructvGo D arr off mem).1 = false := by
  induction D generalizing arr off mem with
  | nil => simp at h
  | cons k ks ih =>
    cases arr with
    | nil => rfl
    | cons v vs =>
      cases hcv : convMember k v with
      | none => simp [getStructvGo, hcv]
      | some c =>
        simp only [List.zip_cons_cons, List.any_cons, hcv, Option.isNone_some,
          Bool.false_or] at h
        simp only [getStructvGo, hcv]
        exact ih vs _ _ h

/-- C3 (amended): a struct retrieval whose value array length differs
from the descriptor's member count fails with no mutation of the
destination; a retrieval in which some element's kind does not match
its declared member kind (or whose descriptor holds an unsupported
kind) also reports failure, but member slots before the failing member
may already have been written. -/
theorem get_structv_failure (D : List GTy) (arr : List GV) (mem : Mem) :
    (arr.length ≠ D.length → getStructv D arr mem = (false, mem)) ∧
    (((D.zip arr).any fun q => (convMember q.1 q.2).isNone) = true →
      (getStructv D arr mem).1 = false) := by
  constructor
  · intro hlen
    rw [getStructv]
    by_cases hD : D.isEmpty
    · rw [if_pos hD]
    · rw [if_neg hD, if_pos hlen]
  · intro hany
    rw [getStructv]
    by_cases hD : D.isEmpty
    · rw [if_pos hD]
    · rw [if_neg hD]
      by_cases hlen : arr.length ≠ D.length
      · rw [if_pos hlen]
      · rw [if_neg hlen]
        exact getStructvGo_any_fail D arr 0 mem hany

/-- C3 witness: a length-mismatched retrieval fails without mutation, a
kind-mismatched retrieval reports failure. -/
theorem get_structv_failure_witness :
    getStructv [GTy.guint] [] (fun _ => CVal.num 0) = (false, fun _ => CVal.num 0) ∧
    (getStructv [GTy.gint, GTy.gstring] [GV.vint 7, GV.vint 8] (fun _ => CVal.num 0)).1 = false :=
  ⟨(get_structv_failure [GTy.guint] [] (fun _ => CVal.num 0)).1 (by decide),
   (get_structv_failure [GTy.gint, GTy.gstring] [GV.vint 7, GV.vint 8] (fun _ => CVal.num 0)).2
     (by decide)⟩

theorem alignOfTy_pos (k : GTy) : 0 < alignOfTy k := by
  cases k <;> simp [alignOfTy]

theorem le_alignVal (v a : Nat) (h : 0 < a) : v ≤ alignVal v a := by
  unfold alignVal
  have hr : (v + a - 1) % a < a := Nat.mod_lt _ h
  have hle : (v + a - 1) % a ≤ v + a - 1 := Nat.mod_le _ _
  omega

theorem packVal_size_pos {k : GTy} {c : CVal} {v : GV} (h : packVal k c = some v) :
    0 < sizeOfTy k := by
  cases k <;> first | decide | (cases c <;> simp [packVal] at h)

/-- Each well-formed member cell packs to a GValue that survives the
16-bit wire fixup and unpacks back to the identical cell. -/
theorem packVal_roundtrip (k : GTy) (c : CVal) (h : cellOk k c = true) :
    ∃ v, packVal k c = some v ∧ convMember k (conv16 v) = some c := by
  cases k with
  | uchar =>
    cases c with
    | num z => exact ⟨.vuchar z, rfl, rfl⟩
    | strc s => simp [cellOk] at h
    | strl ss => simp [cellOk] at h
  | gchar =>
    cases c with
    | num z => exact ⟨.vchar z, rfl, rfl⟩
    | strc s => simp [cellOk] at h
    | strl ss => simp [cellOk] at h
  | guint =>
    cases c with
    | num z => exact ⟨.vuint z, rfl, rfl⟩
    | strc s => simp [cellOk] at h
    | strl ss => simp [cellOk] at h
  | gint =>
    cases c with
    | num z => exact ⟨.vint z, rfl, rfl⟩
    | strc s => simp [cellOk] at h
    | strl ss => simp [cellOk] at h
  | guint64 =>
    cases c with
    | num z => exact ⟨.vuint64 z, rfl, rfl⟩
    | strc s => simp [cellOk] at h
    | strl ss => simp [cellOk] at h
  | gint64 =>
    cases c with
    | num z => exact ⟨.vint64 z, rfl, rfl⟩
    | strc s => simp [cellOk] at h
    | strl ss => simp [cellOk] at h
  | gfloat =>
    cases c with
    | num z => exact ⟨.vfloat z, rfl, rfl⟩
    | strc s => simp [cellOk] at h
    | strl ss => simp [cellOk] at h
  | gdouble =>
    cases c with
    | num z => exact ⟨.vdouble z, rfl, rfl⟩
    | strc s => simp [cellOk] at h
    | strl ss => simp [cellOk] at h
  | gboolean =>
    cases c with
    | num z =>
      have hz : z = 0 ∨ z = 1 := by simpa [cellOk] using h
      rcases hz with rfl | rfl
      · exact ⟨.vboolean 0, rfl, rfl⟩
      · exact ⟨.vboolean 1, rfl, rfl⟩
    | strc s => simp [cellOk] at h
    | strl ss => simp [cellOk] at h
  | uint16 =>
    cases c with
    | num z =>
      have hz : z % 65536 = z := by
        have h2 : 0 ≤ z ∧ z < 65536 := by simpa [cellOk] using h
        exact Int.emod_eq_of_lt h2.1 h2.2
      exact ⟨.vuint16 z, rfl, by simp [convMember, conv16, hz]⟩
    | strc s => simp [cellOk] at h
    | strl ss => simp [cellOk] at h
  | int16 =>
    cases c with
    | num z =>
      have hz : (z + 32768) % 65536 - 32768 = z := by
        have h2 : -32768 ≤ z ∧ z < 32768 := by simpa [cellOk] using h
        omega
      exact ⟨.vint16 z, rfl, by simp [convMember, conv16, hz]⟩
    | strc s => simp [cellOk] at h
    | strl ss => simp [cellOk] at h
  | gstring =>
    cases c with
    | num z => simp [cellOk] at h
    | strc s => exact ⟨.vstring s, rfl, rfl⟩
    | strl ss => simp [cellOk] at h
  | gstrv => cases c <;> simp [cellOk] at h
  | gvarray => cases c <;> simp [cellOk] at h
  | ginvalid => cases c <;> simp [cellOk] at h
  | gother n => cases c <;> simp [cellOk] at h

theorem conv16_fix (v : GV) (h : is16 v = false) : conv16 v = v := by
  cases v <;> first | rfl | simp [is16] at h

theorem map_conv16_of_no16 (arr : List GV) (h : arr.any is16 = false) :
    arr.map conv16 = arr := by
  induction arr with
  | nil => rfl
  | cons v vs ih =>
    simp only [List.any_cons, Bool.or_eq_false_iff] at h
    rw [List.map_cons, conv16_fix v h.1, ih h.2]

/-- The array blconf_channel_set_arrayv hands to the wire is always the
element-wise 16-bit rewrap of the caller's array (the rewrap is the
identity on arrays with no 16-bit element). -/
theorem wireArr_eq_map (arr : List GV) : wireArr arr = arr.map conv16 := by
  unfold wireArr fixup16
  by_cases h : arr.any is16 = true
  · rw [if_pos h]
    rfl
  · have h' : arr.any is16 = false := by simpa using h
    rw [if_neg (by simp [h'])]
    simp [map_conv16_of_no16 arr h']

/-- The unpack loop never touches destination offsets below its
starting offset. -/
theorem getStructvGo_frame (D : List GTy) (arr : List GV) (off : Nat) (mem : Mem) (x : Nat)
    (hx : x < off) : (getStructvGo D arr off mem).2 x = mem x := by
  induction D generalizing arr off mem with
  | nil => rfl
  | cons k ks ih =>
    cases arr with
    | nil => rfl
    | cons v vs =>
      cases hcv : convMember k v with
      | none => simp [getStructvGo, hcv]
      | some c =>
        have h1 : off ≤ alignVal off (alignOfTy k) := le_alignVal off _ (alignOfTy_pos k)
        have h2 : (getStructvGo ks vs (alignVal off (alignOfTy k) + sizeOfTy k)
            (memUpd mem (alignVal off (alignOfTy k)) c)).2 x
            = memUpd mem (alignVal off (alignOfTy k)) c x := ih vs _ _ (by omega)
        simp only [getStructvGo, hcv]
        rw [h2]
        simp only [memUpd]
        rw [if_neg (by omega)]

/-- The pack/unpack loops of the struct codec are inverse on every
conformant struct: packing produces one value per member, unpacking the
wire-fixed array succeeds, and every member cell of the destination
equals the corresponding source cell. -/
theorem setStructvGo_roundtrip (D : List GTy) (off : Nat) (mem mem0 : Mem)
    (hc : ∀ p ∈ structOffsets D off, cellOk p.2 (mem p.1) = true) :
    ∃ arr, setStructvGo D off mem = some arr ∧ arr.length = D.length ∧
      (getStructvGo D (arr.map conv16) off mem0).1 = true ∧
      ∀ p ∈ structOffsets D off, (getStructvGo D (arr.map conv16) off mem0).2 p.1 = mem p.1 := by
  induction D generalizing off mem0 with
  | nil => exact ⟨[], rfl, rfl, rfl, fun p hp => by simp [structOffsets] at hp⟩
  | cons k ks ih =>
    have hhead : cellOk k (mem (alignVal off (alignOfTy k))) = true :=
      hc (alignVal off (alignOfTy k), k) (by simp [structOffsets])
    have htail : ∀ p ∈ structOffsets ks (alignVal off (alignOfTy k) + sizeOfTy k),
        cellOk p.2 (mem p.1) = true := by
      intro p hp
      exact hc p (by simp [structOffsets]; exact Or.inr hp)
    obtain ⟨v, hpv, hcm⟩ := packVal_roundtrip k _ hhead
    obtain ⟨arr, hgo, hlen, hok, hmem⟩ := ih (alignVal off (alignOfTy k) + sizeOfTy k)
      (memUpd mem0 (alignVal off (alignOfTy k)) (mem (alignVal off (alignOfTy k)))) htail
    have hred : getStructvGo (k :: ks) ((v :: arr).map conv16) off mem0
        = getStructvGo ks (arr.map conv16) (alignVal off (alignOfTy k) + sizeOfTy k)
          (memUpd mem0 (alignVal off (alignOfTy k)) (mem (alignVal off (alignOfTy k)))) := by
      simp only [List.map_cons, getStructvGo, hcm]
    refine ⟨v :: arr, ?_, ?_, ?_, ?_⟩
    · simp [setStructvGo, hpv, hgo]
    · simp [hlen]
    · rw [hred]
      exact hok
    · intro p hp
      rw [hred]
      rw [structOffsets] at hp
      simp only [List.mem_cons] at hp
      rcases hp with rfl | hp
      · have hsz : 0 < sizeOfTy k := packVal_size_pos hpv
        have hfr : (getStructvGo ks (arr.map conv16) (alignVal off (alignOfTy k) + sizeOfTy k)
            (memUpd mem0 (alignVal off (alignOfTy k)) (mem (alignVal off (alignOfTy k))))).2
              (alignVal off (alignOfTy k))
            = memUpd mem0 (alignVal off (alignOfTy k)) (mem (alignVal off (alignOfTy k)))
                (alignVal off (alignOfTy k)) :=
          getStructvGo_frame _ _ _ _ _ (by omega)
        rw [hfr]
        simp [memUpd]
      · exact hmem p hp

/-- C1: pack/unpack round-trip of the struct codec.  For every
non-empty descriptor and conformant struct, blconf_channel_set_structv
packs the struct into a value array (per member: round the offset up to
the member's platform alignment, read, advance by its storage size),
the 16-bit wire fixup is applied, and blconf_channel_get_structv
unpacks the stored array back over the same layout walk, reproducing
every member cell of the source struct exactly. -/
theorem struct_roundtrip (D : List GTy) (mem mem0 : Mem)
    (hne : D ≠ []) (hc : conformsB D mem = true) :
    (setStructvArr D mem).isSome = true ∧
    (getStructv D (wireArr ((setStructvArr D mem).getD [])) mem0).1 = true ∧
    ((structOffsets D 0).all fun p =>
      decide ((getStructv D (wireArr ((setStructvArr D mem).getD [])) mem0).2 p.1 = mem p.1)) = true := by
  have hcc : ∀ p ∈ structOffsets D 0, cellOk p.2 (mem p.1) = true :=
    List.all_eq_true.mp (by simpa [conformsB] using hc)
  obtain ⟨arr, hgo, hlen, hok, hmem⟩ := setStructvGo_roundtrip D 0 mem mem0 hcc
  have hDne : D.isEmpty = false := by
    cases D with
    | nil => exact absurd rfl hne
    | cons k ks => rfl
  have hset : setStructvArr D mem = some arr := by
    simp [setStructvArr, hDne, hgo]
  rw [hset]
  simp only [Option.getD_some, Option.isSome_some, wireArr_eq_map]
  have hmaplen : ¬ (arr.map conv16).length ≠ D.length := by
    simp [hlen]
  refine ⟨by trivial, ?_, ?_⟩
  · rw [getStructv, if_neg (by simp [hDne]), if_neg hmaplen]
    exact hok
  · rw [List.all_eq_true]
    intro p hp
    rw [getStructv, if_neg (by simp [hDne]), if_neg hmaplen]
    exact decide_eq_true (hmem p hp)

/-- C1 witness: the round-trip evaluated on the spec's
[u8, u64, u16, string] example over an all-zero destination. -/
theorem struct_roundtrip_witness :
    (setStructvArr exD exMem).isSome = true ∧
    (getStructv exD (wireArr ((setStructvArr exD exMem).getD [])) (fun _ => CVal.num 0)).1 = true ∧
    ((structOffsets exD 0).all fun p =>
      decide ((getStructv exD (wireArr ((setStructvArr exD exMem).getD []))
        (fun _ => CVal.num 0)).2 p.1 = exMem p.1)) = true :=
  struct_roundtrip exD exMem (fun _ => CVal.num 0) (by decide) (by decide)

end Blconf
